import Mathlib

/-!
Verification of the mmake build tool (mmake.c).

The development shallow-embeds the core of mmake.c: the staleness oracle
(check_file), the build driver (run_makefile and the loops of main), and
the command executor (run_command). File-system state and child-process
behaviour are modelled as oracles supplied in a World value; the mutable
run context of the program (the start_args fields exitcode and the
option flags, plus observable traces) is a RunState threaded explicitly.
-/

namespace Mmake

/-- Modelled from the spec: a Rule of the external Rule Model (produced by
the parser collaborator, which is not part of the analysed sources): a
target name, the ordered prerequisite names, and the ordered command argv.
Following the spec, rule_prereq of the C interface yields the null pointer
exactly when the prerequisite sequence is empty. -/
structure Rule where
  name : String
  prereqs : List String
  cmd : List String
deriving DecidableEq

/-- Modelled from the spec: the Rule Model is an opaque collection of
rules with lookup by name as the only access path, at most one rule per
name; we represent it as the declaration-ordered list of rules. -/
def makefile_rule (m : List Rule) (target : String) : Option Rule :=
  m.find? (fun r => r.name == target)

/-- Modelled from the spec: the default target is the first declared
rule, or absent when the model is empty. -/
def makefile_default_target (m : List Rule) : Option String :=
  m.head?.map Rule.name

/-- Outcome of one fork/exec/wait round, as observed by the parent in
run_command of mmake.c: fork may fail, waitpid may fail, the exec in the
child may fail (the child then exits with errno), or the child runs and
either exits normally with a status or terminates abnormally. -/
inductive SpawnResult where
  | forkFail (err : Nat)
  | waitFail (err : Nat)
  | execFailChild (err : Nat)
  | exited (status : Nat)
  | signaled
deriving DecidableEq

/-- The external world: file modification times (none when the file does
not exist, matching access and lstat in check_file), and an oracle giving
the result of the n-th fork performed by the program. -/
structure World where
  fs : String → Option Nat
  spawn : Nat → SpawnResult

/-- The start argument flags of mmake.c relevant to the core: arg_b is
the force-rebuild flag -B, arg_s the quiet flag -s. -/
structure Args where
  arg_b : Bool
  arg_s : Bool
deriving DecidableEq

/-- The run context plus observable traces: exitcode is the field of
start_args updated by run_command; nspawn counts fork calls (indexing the
spawn oracle); output is the list of command lines echoed on stdout;
errout the lines printed on stderr; spawned the argv of every child
created; recorded the successive values stored into exitcode. -/
structure RunState where
  exitcode : Nat
  nspawn : Nat
  output : List String
  errout : List String
  spawned : List (List String)
  recorded : List Nat
deriving DecidableEq

/-- Initial run context: init_struct sets exitcode to 0 and no traces. -/
def init_state : RunState :=
  { exitcode := 0, nspawn := 0, output := [], errout := [], spawned := [], recorded := [] }

/-- Result of running a piece of the program: normal completion, a call
of exit with the given code (fatal), or exhaustion of the recursion fuel
(modelling the unbounded recursion the C source allows on cyclic input).
The carried state records the traces accumulated up to that point. -/
inductive Outcome where
  | ok (st : RunState)
  | fatal (code : Nat) (st : RunState)
  | oom (st : RunState)
deriving DecidableEq

/-- Sequencing: a fatal exit or fuel exhaustion aborts everything after
it, matching the semantics of exit in C. -/
def Outcome.bind (o : Outcome) (f : RunState → Outcome) : Outcome :=
  match o with
  | .ok st => f st
  | .fatal c st => .fatal c st
  | .oom st => .oom st

/-- The state carried by an outcome. -/
def Outcome.state : Outcome → RunState
  | .ok st => st
  | .fatal _ st => st
  | .oom st => st

/-- Whether the outcome is normal completion. -/
def Outcome.isOk : Outcome → Bool
  | .ok _ => true
  | _ => false

/-- Whether the outcome is a fatal exit. -/
def Outcome.isFatal : Outcome → Bool
  | .fatal _ _ => true
  | _ => false

/-- The process exit status an outcome yields: the code passed to exit
for a fatal outcome, the exitcode field on normal completion (main ends
with exit of that field), none when the model ran out of fuel. -/
def final_exit : Outcome → Option Nat
  | .ok st => some st.exitcode
  | .fatal c _ => some c
  | .oom _ => none

/-- Stderr text for perror of an OS error, kept abstract up to the
error number. -/
def oserr (e : Nat) : String :=
  "os error " ++ Nat.repr e

/-- The echo loop at the top of run_command: the argv is printed
space-joined on one line; an empty argv prints nothing; with -s stdout
is closed in main, so nothing is observably printed. -/
def echo_cmd (quiet : Bool) (cmd : List String) (st : RunState) : RunState :=
  if quiet = true then st
  else if cmd = [] then st
  else { st with output := st.output ++ [String.intercalate " " cmd] }

/-- run_command of mmake.c: echo the command, fork, exec in the child, wait
in the parent. Fork failure and wait failure call exit with errno in the
parent (fatal). Exec failure makes the child print the error and exit
with errno, which the parent observes as a normal child exit; a normally
exited child stores its status into exitcode; an abnormally terminated
child leaves exitcode unchanged. -/
def run_command (w : World) (quiet : Bool) (cmd : List String) (st : RunState) : Outcome :=
  let st1 := echo_cmd quiet cmd st
  match w.spawn st.nspawn with
  | .forkFail err =>
      .fatal err { st1 with nspawn := st1.nspawn + 1,
                            errout := st1.errout ++ [oserr err] }
  | .waitFail err =>
      .fatal err { st1 with nspawn := st1.nspawn + 1,
                            spawned := st1.spawned ++ [cmd],
                            errout := st1.errout ++ [oserr err] }
  | .execFailChild err =>
      .ok { st1 with nspawn := st1.nspawn + 1,
                     spawned := st1.spawned ++ [cmd],
                     errout := st1.errout ++ [oserr err],
                     exitcode := err % 256,
                     recorded := st1.recorded ++ [err % 256] }
  | .exited s =>
      .ok { st1 with nspawn := st1.nspawn + 1,
                     spawned := st1.spawned ++ [cmd],
                     exitcode := s % 256,
                     recorded := st1.recorded ++ [s % 256] }
  | .signaled =>
      .ok { st1 with nspawn := st1.nspawn + 1,
                     spawned := st1.spawned ++ [cmd] }

/-- check_file of mmake.c: if the prerequisite file does not exist, a
missing rule for it is a fatal error (the message goes to stderr and the
program exits with EXIT_FAILURE), otherwise rebuild is needed; if the
target file does not exist, rebuild is needed; otherwise rebuild is
needed exactly when the prerequisite modification time is strictly newer
than that of the target (difftime less than or equal to zero means no
rebuild). -/
def check_file (fs : String → Option Nat) (m : List Rule) (current prereq : String) :
    Except String Bool :=
  match fs prereq with
  | none =>
      match makefile_rule m prereq with
      | none => Except.error ("mmake: No rule to make target \x27" ++ prereq ++ "\x27")
      | some _ => Except.ok true
  | some time_pre =>
      match fs current with
      | none => Except.ok true
      | some time_tar => Except.ok (decide (time_tar < time_pre))

/-- Generic sequential loop over a list of names, used for the target
loop of main and the prerequisite recursion loop of run_makefile. -/
def build_list (f : String → RunState → Outcome) : List String → RunState → Outcome
  | [], st => Outcome.ok st
  | p :: ps, st => Outcome.bind (f p st) (fun st1 => build_list f ps st1)

/-- The second while loop of run_makefile (index j): for each
prerequisite in declaration order, run check_file; on a fatal check the
message is printed and the program exits with EXIT_FAILURE (1); when the
check reports staleness the command of the rule is executed. -/
def check_loop (w : World) (quiet : Bool) (m : List Rule) (target : String)
    (cmd : List String) : List String → RunState → Outcome
  | [], st => Outcome.ok st
  | p :: ps, st =>
      match check_file w.fs m target p with
      | Except.error msg => Outcome.fatal 1 { st with errout := st.errout ++ [msg] }
      | Except.ok true =>
          Outcome.bind (run_command w quiet cmd st)
            (fun st1 => check_loop w quiet m target cmd ps st1)
      | Except.ok false => check_loop w quiet m target cmd ps st

/-- run_makefile of mmake.c, with explicit fuel standing for the C call
stack (the source has no cycle detection). No rule for the target: return
at once. Prerequisites present (rule_prereq non-null, i.e. the sequence
is non-empty): first recursively build every prerequisite in order; then
with -B run the command unconditionally, otherwise run the check loop.
No prerequisites: run the command unconditionally. -/
def run_makefile (w : World) (sa : Args) (m : List Rule) :
    Nat → String → RunState → Outcome
  | 0, _, st => Outcome.oom st
  | fuel + 1, target, st =>
      match makefile_rule m target with
      | none => Outcome.ok st
      | some r =>
          match r.prereqs with
          | [] => run_command w sa.arg_s r.cmd st
          | p :: ps =>
              Outcome.bind
                (build_list (fun q st2 => run_makefile w sa m fuel q st2) (p :: ps) st)
                (fun st1 =>
                  if sa.arg_b = true then run_command w sa.arg_s r.cmd st1
                  else check_loop w sa.arg_s m target r.cmd (p :: ps) st1)

/-- The target loop of main: each explicit target is built in the order
given; a fatal exit inside aborts the rest via Outcome.bind. -/
def run_targets (w : World) (sa : Args) (m : List Rule) (fuel : Nat)
    (targets : List String) (st : RunState) : Outcome :=
  build_list (fun t st2 => run_makefile w sa m fuel t st2) targets st

/-- The targets main actually builds: the explicit ones, or the default
target of the model when none were given. -/
def effective_targets (m : List Rule) (targets : List String) : List String :=
  if targets = [] then (makefile_default_target m).toList else targets

/-- main of mmake.c after argument parsing: build every effective target
starting from the freshly initialised run context; the process then
exits with the exitcode field (or with the code of a fatal exit). -/
def mmake_main (w : World) (sa : Args) (m : List Rule) (targets : List String)
    (fuel : Nat) : Outcome :=
  run_targets w sa m fuel (effective_targets m targets) init_state

/-- A spawn oracle answer that does not abort the parent process. -/
def SpawnOk : SpawnResult → Prop
  | .forkFail _ => False
  | .waitFail _ => False
  | _ => True

/-- Whether a prerequisite file is strictly newer than a target
modification time tt (false when the file is absent). -/
def staleP (w : World) (tt : Nat) (q : String) : Bool :=
  match w.fs q with
  | some tq => decide (tt < tq)
  | none => false

/-- A run state with the stdout trace erased, used to compare runs that
may differ only in echoed output. -/
def stripSt (st : RunState) : RunState :=
  { st with output := [] }

/-- An outcome with the stdout trace of its state erased. -/
def stripO : Outcome → Outcome
  | .ok st => .ok (stripSt st)
  | .fatal c st => .fatal c (stripSt st)
  | .oom st => .oom (stripSt st)

/- ------------------------------------------------------------------ -/
/- Concrete worlds, rule models and states used on closed inputs      -/
/- ------------------------------------------------------------------ -/

/-- Two no-prerequisite rules: the first command exits 2, the second 0. -/
def wC1 : World :=
  ⟨fun _ => none, fun n => if n = 0 then SpawnResult.exited 2 else SpawnResult.exited 0⟩

/-- Rule model with two independent explicit targets. -/
def mC1 : List Rule :=
  [⟨"t1", [], ["c1"]⟩, ⟨"t2", [], ["c2"]⟩]

/-- Final state of running both targets of mC1 under wC1. -/
def stC1 : RunState :=
  ⟨0, 2, ["c1", "c2"], [], [["c1"], ["c2"]], [2, 0]⟩

/-- State after building only the first target of mC1 under wC1. -/
def stC1a : RunState :=
  ⟨2, 1, ["c1"], [], [["c1"]], [2]⟩

/-- File times: pre and tar tie at 5, pre2 is newer than absent tar2. -/
def fsC2 : String → Option Nat :=
  fun s => if s = "pre" then some 5 else if s = "tar" then some 5
           else if s = "pre2" then some 7 else none

/-- Empty file system: no file exists. -/
def fsC3 : String → Option Nat := fun _ => none

/-- One rule producing the otherwise missing prerequisite p. -/
def mC3 : List Rule := [⟨"p", [], []⟩]

/-- Empty file system with an always-succeeding spawn oracle. -/
def wC3 : World := ⟨fsC3, fun _ => SpawnResult.exited 0⟩

/-- A phony clean-style rule with no prerequisites. -/
def mC4 : List Rule := [⟨"clean", [], ["rm"]⟩]

/-- Empty file system, commands always exit 0. -/
def wC4 : World := ⟨fun _ => none, fun _ => SpawnResult.exited 0⟩

/-- Target T at time 10 with prerequisites a (20) and b (30), both stale. -/
def wC5 : World :=
  ⟨fun s => if s = "T" then some 10 else if s = "a" then some 20
            else if s = "b" then some 30 else none,
   fun _ => SpawnResult.exited 0⟩

/-- One rule whose two prerequisites are plain files on disk. -/
def mC5 : List Rule := [⟨"T", ["a", "b"], ["cc"]⟩]

/-- The first fork fails to exec in the child (errno 2), the second
command runs normally and exits 0. -/
def wC6cex : World :=
  ⟨fun _ => none, fun n => if n = 0 then SpawnResult.execFailChild 2 else SpawnResult.exited 0⟩

/-- Two independent no-prerequisite targets. -/
def mC6 : List Rule := [⟨"a", [], ["foo"]⟩, ⟨"b", [], ["bar"]⟩]

/-- A world where fork always fails with errno 12. -/
def wC6ff : World := ⟨fun _ => none, fun _ => SpawnResult.forkFail 12⟩

/-- A world where exec always fails in the child with errno 2. -/
def wC6ef : World := ⟨fun _ => none, fun _ => SpawnResult.execFailChild 2⟩

/-- A world where every child exits normally with status 7. -/
def wC7 : World := ⟨fun _ => none, fun _ => SpawnResult.exited 7⟩

/-- A rule model without any rule named zzz. -/
def mC8 : List Rule := [⟨"a", [], ["x"]⟩]

/-- Empty file system, commands always exit 0. -/
def wC8 : World := ⟨fun _ => none, fun _ => SpawnResult.exited 0⟩

/-- A world where every child terminates abnormally (killed). -/
def wC10sig : World := ⟨fun _ => none, fun _ => SpawnResult.signaled⟩

/-- A world where every child exits normally with status 3. -/
def wC10ex : World := ⟨fun _ => none, fun _ => SpawnResult.exited 3⟩

/- ------------------------------------------------------------------ -/
/- Helper lemmas                                                      -/
/- ------------------------------------------------------------------ -/

@[simp]
theorem bind_ok (st : RunState) (f : RunState → Outcome) :
    Outcome.bind (Outcome.ok st) f = f st := rfl

@[simp]
theorem bind_fatal (c : Nat) (st : RunState) (f : RunState → Outcome) :
    Outcome.bind (Outcome.fatal c st) f = Outcome.fatal c st := rfl

@[simp]
theorem bind_oom (st : RunState) (f : RunState → Outcome) :
    Outcome.bind (Outcome.oom st) f = Outcome.oom st := rfl

@[simp]
theorem echo_exitcode (q : Bool) (c : List String) (st : RunState) :
    (echo_cmd q c st).exitcode = st.exitcode := by
  by_cases h1 : q = true <;> by_cases h2 : c = [] <;> simp [echo_cmd, h1, h2]

@[simp]
theorem echo_nspawn (q : Bool) (c : List String) (st : RunState) :
    (echo_cmd q c st).nspawn = st.nspawn := by
  by_cases h1 : q = true <;> by_cases h2 : c = [] <;> simp [echo_cmd, h1, h2]

@[simp]
theorem echo_errout (q : Bool) (c : List String) (st : RunState) :
    (echo_cmd q c st).errout = st.errout := by
  by_cases h1 : q = true <;> by_cases h2 : c = [] <;> simp [echo_cmd, h1, h2]

@[simp]
theorem echo_spawned (q : Bool) (c : List String) (st : RunState) :
    (echo_cmd q c st).spawned = st.spawned := by
  by_cases h1 : q = true <;> by_cases h2 : c = [] <;> simp [echo_cmd, h1, h2]

@[simp]
theorem echo_recorded (q : Bool) (c : List String) (st : RunState) :
    (echo_cmd q c st).recorded = st.recorded := by
  by_cases h1 : q = true <;> by_cases h2 : c = [] <;> simp [echo_cmd, h1, h2]

@[simp]
theorem echo_empty (q : Bool) (st : RunState) : echo_cmd q [] st = st := by
  by_cases h1 : q = true <;> simp [echo_cmd, h1]

theorem run_command_forkFail {w : World} {st : RunState} {e : Nat} (q : Bool)
    (cmd : List String) (h : w.spawn st.nspawn = SpawnResult.forkFail e) :
    run_command w q cmd st =
      Outcome.fatal e { echo_cmd q cmd st with
                          nspawn := st.nspawn + 1,
                          errout := st.errout ++ [oserr e] } := by
  simp [run_command, h]

theorem run_command_waitFail {w : World} {st : RunState} {e : Nat} (q : Bool)
    (cmd : List String) (h : w.spawn st.nspawn = SpawnResult.waitFail e) :
    run_command w q cmd st =
      Outcome.fatal e { echo_cmd q cmd st with
                          nspawn := st.nspawn + 1,
                          spawned := st.spawned ++ [cmd],
                          errout := st.errout ++ [oserr e] } := by
  simp [run_command, h]

theorem run_command_execFail {w : World} {st : RunState} {e : Nat} (q : Bool)
    (cmd : List String) (h : w.spawn st.nspawn = SpawnResult.execFailChild e) :
    run_command w q cmd st =
      Outcome.ok { echo_cmd q cmd st with
                     nspawn := st.nspawn + 1,
                     spawned := st.spawned ++ [cmd],
                     errout := st.errout ++ [oserr e],
                     exitcode := e % 256,
                     recorded := st.recorded ++ [e % 256] } := by
  simp [run_command, h]

theorem run_command_exited {w : World} {st : RunState} {s : Nat} (q : Bool)
    (cmd : List String) (h : w.spawn st.nspawn = SpawnResult.exited s) :
    run_command w q cmd st =
      Outcome.ok { echo_cmd q cmd st with
                     nspawn := st.nspawn + 1,
                     spawned := st.spawned ++ [cmd],
                     exitcode := s % 256,
                     recorded := st.recorded ++ [s % 256] } := by
  simp [run_command, h]

theorem run_command_signaled {w : World} {st : RunState} (q : Bool)
    (cmd : List String) (h : w.spawn st.nspawn = SpawnResult.signaled) :
    run_command w q cmd st =
      Outcome.ok { echo_cmd q cmd st with
                     nspawn := st.nspawn + 1,
                     spawned := st.spawned ++ [cmd] } := by
  simp [run_command, h]

theorem run_command_nspawn (w : World) (q : Bool) (cmd : List String) (st : RunState) :
    (run_command w q cmd st).state.nspawn = st.nspawn + 1 := by
  cases h : w.spawn st.nspawn <;>
    simp [run_command, h, Outcome.state]

theorem run_makefile_no_rule {m : List Rule} {target : String}
    (w : World) (sa : Args) (fuel : Nat) (st : RunState)
    (h : makefile_rule m target = none) :
    run_makefile w sa m (fuel + 1) target st = Outcome.ok st := by
  simp [run_makefile, h]

theorem run_makefile_no_prereqs {m : List Rule} {target : String} {r : Rule}
    (w : World) (sa : Args) (fuel : Nat) (st : RunState)
    (hr : makefile_rule m target = some r) (hp : r.prereqs = []) :
    run_makefile w sa m (fuel + 1) target st = run_command w sa.arg_s r.cmd st := by
  simp [run_makefile, hr, hp]

theorem getLastD_app (l : List Nat) (a d : Nat) : (l ++ [a]).getLastD d = a := by
  simp

theorem inv_run_command {w : World} {q : Bool} {cmd : List String} {st st' : RunState}
    (h : run_command w q cmd st = Outcome.ok st')
    (hP : st.exitcode = st.recorded.getLastD 0) :
    st'.exitcode = st'.recorded.getLastD 0 := by
  cases hs : w.spawn st.nspawn
  case forkFail e => rw [run_command_forkFail q cmd hs] at h; simp at h
  case waitFail e => rw [run_command_waitFail q cmd hs] at h; simp at h
  case execFailChild e =>
    rw [run_command_execFail q cmd hs] at h
    injection h with h
    subst h
    simp [getLastD_app]
  case exited s =>
    rw [run_command_exited q cmd hs] at h
    injection h with h
    subst h
    simp [getLastD_app]
  case signaled =>
    rw [run_command_signaled q cmd hs] at h
    injection h with h
    subst h
    simpa using hP

theorem build_list_pres (P : RunState → Prop) (f : String → RunState → Outcome)
    (hf : ∀ p st st', f p st = Outcome.ok st' → P st → P st') :
    ∀ (ps : List String) (st st' : RunState),
      build_list f ps st = Outcome.ok st' → P st → P st' := by
  intro ps
  induction ps with
  | nil =>
    intro st st' h hP
    simp [build_list] at h
    rwa [← h]
  | cons p ps ih =>
    intro st st' h hP
    simp only [build_list] at h
    cases hf1 : f p st with
    | ok st1 =>
      rw [hf1] at h
      simp only [bind_ok] at h
      exact ih st1 st' h (hf p st st1 hf1 hP)
    | fatal c s => rw [hf1] at h; simp at h
    | oom s => rw [hf1] at h; simp at h

theorem inv_check_loop (w : World) (q : Bool) (m : List Rule) (target : String)
    (cmd : List String) :
    ∀ (ps : List String) (st st' : RunState),
      check_loop w q m target cmd ps st = Outcome.ok st' →
      st.exitcode = st.recorded.getLastD 0 →
      st'.exitcode = st'.recorded.getLastD 0 := by
  intro ps
  induction ps with
  | nil =>
    intro st st' h hP
    simp [check_loop] at h
    rwa [← h]
  | cons p ps ih =>
    intro st st' h hP
    simp only [check_loop] at h
    cases hcf : check_file w.fs m target p with
    | error msg => rw [hcf] at h; simp at h
    | ok b =>
      rw [hcf] at h
      cases b with
      | true =>
        simp only at h
        cases hrc : run_command w q cmd st with
        | ok st1 =>
          rw [hrc] at h
          simp only [bind_ok] at h
          exact ih st1 st' h (inv_run_command hrc hP)
        | fatal c s => rw [hrc] at h; simp at h
        | oom s => rw [hrc] at h; simp at h
      | false =>
        simp only at h
        exact ih st st' h hP

theorem inv_run_makefile (w : World) (sa : Args) (m : List Rule) :
    ∀ (fuel : Nat) (target : String) (st st' : RunState),
      run_makefile w sa m fuel target st = Outcome.ok st' →
      st.exitcode = st.recorded.getLastD 0 →
      st'.exitcode = st'.recorded.getLastD 0 := by
  intro fuel
  induction fuel with
  | zero => intro t st st' h hP; simp [run_makefile] at h
  | succ fuel ih =>
    intro t st st' h hP
    simp only [run_makefile] at h
    cases hr : makefile_rule m t with
    | none =>
      rw [hr] at h
      simp only at h
      injection h with h
      rwa [← h]
    | some r =>
      rw [hr] at h
      simp only at h
      cases hp : r.prereqs with
      | nil =>
        rw [hp] at h
        simp only at h
        exact inv_run_command h hP
      | cons p ps =>
        rw [hp] at h
        simp only at h
        cases hbl : build_list (fun q2 st2 => run_makefile w sa m fuel q2 st2) (p :: ps) st with
        | ok st1 =>
          rw [hbl] at h
          simp only [bind_ok] at h
          have hP1 : st1.exitcode = st1.recorded.getLastD 0 :=
            build_list_pres _ _ (fun p2 s2 s2' h2 => ih p2 s2 s2' h2) (p :: ps) st st1 hbl hP
          by_cases hb : sa.arg_b = true
          · rw [if_pos hb] at h
            exact inv_run_command h hP1
          · rw [if_neg hb] at h
            exact inv_check_loop w sa.arg_s m t r.cmd (p :: ps) st1 st' h hP1
        | fatal c s => rw [hbl] at h; simp at h
        | oom s => rw [hbl] at h; simp at h

theorem run_makefile_prereqs (w : World) (sa : Args) (m : List Rule) (fuel : Nat)
    (target : String) (st : RunState) (r : Rule) (p : String) (ps : List String)
    (hr : makefile_rule m target = some r) (hp : r.prereqs = p :: ps) :
    run_makefile w sa m (fuel + 1) target st =
      Outcome.bind
        (build_list (fun q2 st2 => run_makefile w sa m fuel q2 st2) (p :: ps) st)
        (fun st1 =>
          if sa.arg_b = true then run_command w sa.arg_s r.cmd st1
          else check_loop w sa.arg_s m target r.cmd (p :: ps) st1) := by
  simp only [run_makefile, hr, hp]

theorem run_command_okState {w : World} {q : Bool} {cmd : List String} {st : RunState}
    (h : SpawnOk (w.spawn st.nspawn)) :
    ∃ st', run_command w q cmd st = Outcome.ok st' ∧
      st'.spawned = st.spawned ++ [cmd] ∧ st'.nspawn = st.nspawn + 1 := by
  cases hs : w.spawn st.nspawn
  case forkFail e => rw [hs] at h; simp [SpawnOk] at h
  case waitFail e => rw [hs] at h; simp [SpawnOk] at h
  case execFailChild e =>
    exact ⟨_, run_command_execFail q cmd hs, by simp, by simp⟩
  case exited s =>
    exact ⟨_, run_command_exited q cmd hs, by simp, by simp⟩
  case signaled =>
    exact ⟨_, run_command_signaled q cmd hs, by simp, by simp⟩

theorem build_list_no_rule (w : World) (sa : Args) (m : List Rule) (fuel : Nat) :
    ∀ (ps : List String) (st : RunState), (∀ p ∈ ps, makefile_rule m p = none) →
      build_list (fun q2 st2 => run_makefile w sa m (fuel + 1) q2 st2) ps st =
        Outcome.ok st := by
  intro ps
  induction ps with
  | nil => intro st _; simp [build_list]
  | cons p ps ih =>
    intro st h
    have hp : makefile_rule m p = none := h p (by simp)
    simp only [build_list, run_makefile_no_rule w sa fuel st hp, bind_ok]
    exact ih st (fun p2 hp2 => h p2 (by simp [hp2]))

theorem check_loop_count (w : World) (q : Bool) (m : List Rule) (target : String)
    (cmd : List String) (tt : Nat) (htar : w.fs target = some tt)
    (hok : ∀ n, SpawnOk (w.spawn n)) :
    ∀ (ps : List String) (st : RunState), (∀ p ∈ ps, (w.fs p).isSome = true) →
      ∃ st', check_loop w q m target cmd ps st = Outcome.ok st' ∧
        st'.spawned = st.spawned ++ List.replicate (ps.countP (staleP w tt)) cmd := by
  intro ps
  induction ps with
  | nil => intro st _; exact ⟨st, by simp [check_loop], by simp⟩
  | cons p ps ih =>
    intro st h
    obtain ⟨tq, hq⟩ := Option.isSome_iff_exists.mp (h p (by simp))
    have hcf : check_file w.fs m target p = Except.ok (decide (tt < tq)) := by
      simp [check_file, hq, htar]
    have hrest : ∀ p2 ∈ ps, (w.fs p2).isSome = true :=
      fun p2 hp2 => h p2 (by simp [hp2])
    by_cases hlt : tt < tq
    · obtain ⟨st1, hrc, hsp1, _⟩ := @run_command_okState w q cmd st (hok st.nspawn)
      obtain ⟨st2, hcl, hsp2⟩ := ih st1 hrest
      refine ⟨st2, ?_, ?_⟩
      · simp only [check_loop, hcf, decide_eq_true hlt, hrc, bind_ok]
        exact hcl
      · rw [hsp2, hsp1, List.countP_cons]
        simp [staleP, hq, hlt, List.replicate_succ, List.append_assoc]
    · obtain ⟨st2, hcl, hsp2⟩ := ih st hrest
      refine ⟨st2, ?_, ?_⟩
      · simp only [check_loop, hcf, decide_eq_false hlt]
        exact hcl
      · rw [hsp2, List.countP_cons]
        simp [staleP, hq, hlt]

theorem stripO_state_spawned (o : Outcome) : (stripO o).state.spawned = o.state.spawned := by
  cases o <;> rfl

theorem stripO_final_exit (o : Outcome) : final_exit (stripO o) = final_exit o := by
  cases o <;> rfl

theorem strip_run_command (w : World) (q1 q2 : Bool) (cmd : List String)
    (s1 s2 : RunState) (h : stripSt s1 = stripSt s2) :
    stripO (run_command w q1 cmd s1) = stripO (run_command w q2 cmd s2) := by
  obtain ⟨e1, n1, o1, er1, sp1, rc1⟩ := s1
  obtain ⟨e2, n2, o2, er2, sp2, rc2⟩ := s2
  simp [stripSt] at h
  obtain ⟨he, hn, her, hsp, hrc⟩ := h
  subst he; subst hn; subst her; subst hsp; subst hrc
  cases q1 <;> cases q2 <;> by_cases hc : cmd = [] <;>
    cases hs : w.spawn n1 <;>
      simp [run_command, echo_cmd, hs, hc, stripO, stripSt]

theorem strip_bind (o1 o2 : Outcome) (f1 f2 : RunState → Outcome)
    (ho : stripO o1 = stripO o2)
    (hf : ∀ s1 s2, stripSt s1 = stripSt s2 → stripO (f1 s1) = stripO (f2 s2)) :
    stripO (Outcome.bind o1 f1) = stripO (Outcome.bind o2 f2) := by
  cases o1 with
  | ok s1 =>
    cases o2 with
    | ok s2 =>
      simp only [stripO, Outcome.ok.injEq] at ho
      simpa [Outcome.bind] using hf s1 s2 ho
    | fatal c s => simp [stripO] at ho
    | oom s => simp [stripO] at ho
  | fatal c1 s1 =>
    cases o2 with
    | ok s2 => simp [stripO] at ho
    | fatal c2 s2 =>
      simp only [stripO, Outcome.fatal.injEq] at ho
      simp [Outcome.bind, stripO, ho.1, ho.2]
    | oom s2 => simp [stripO] at ho
  | oom s1 =>
    cases o2 with
    | ok s2 => simp [stripO] at ho
    | fatal c s2 => simp [stripO] at ho
    | oom s2 =>
      simp only [stripO, Outcome.oom.injEq] at ho
      simp [Outcome.bind, stripO, ho]

theorem strip_build_list (f1 f2 : String → RunState → Outcome)
    (hf : ∀ p s1 s2, stripSt s1 = stripSt s2 → stripO (f1 p s1) = stripO (f2 p s2)) :
    ∀ (ps : List String) (s1 s2 : RunState), stripSt s1 = stripSt s2 →
      stripO (build_list f1 ps s1) = stripO (build_list f2 ps s2) := by
  intro ps
  induction ps with
  | nil => intro s1 s2 h; simp [build_list, stripO, h]
  | cons p ps ih =>
    intro s1 s2 h
    simp only [build_list]
    exact strip_bind _ _ _ _ (hf p s1 s2 h) (fun t1 t2 ht => ih t1 t2 ht)

theorem strip_check_loop (w : World) (q1 q2 : Bool) (m : List Rule) (target : String)
    (cmd : List String) :
    ∀ (ps : List String) (s1 s2 : RunState), stripSt s1 = stripSt s2 →
      stripO (check_loop w q1 m target cmd ps s1) =
        stripO (check_loop w q2 m target cmd ps s2) := by
  intro ps
  induction ps with
  | nil => intro s1 s2 h; simp [check_loop, stripO, h]
  | cons p ps ih =>
    intro s1 s2 h
    simp only [check_loop]
    cases hcf : check_file w.fs m target p with
    | error msg =>
      obtain ⟨e1, n1, o1, er1, sp1, rc1⟩ := s1
      obtain ⟨e2, n2, o2, er2, sp2, rc2⟩ := s2
      simp [stripSt] at h
      obtain ⟨he, hn, her, hsp, hrc⟩ := h
      subst he; subst hn; subst her; subst hsp; subst hrc
      simp [stripO, stripSt]
    | ok bl =>
      cases bl with
      | true =>
        exact strip_bind _ _ _ _ (strip_run_command w q1 q2 cmd s1 s2 h)
          (fun t1 t2 ht => ih t1 t2 ht)
      | false => exact ih s1 s2 h

theorem strip_run_makefile (w : World) (m : List Rule) (b q1 q2 : Bool) :
    ∀ (fuel : Nat) (target : String) (s1 s2 : RunState), stripSt s1 = stripSt s2 →
      stripO (run_makefile w ⟨b, q1⟩ m fuel target s1) =
        stripO (run_makefile w ⟨b, q2⟩ m fuel target s2) := by
  intro fuel
  induction fuel with
  | zero => intro t s1 s2 h; simp [run_makefile, stripO, h]
  | succ fuel ih =>
    intro t s1 s2 h
    cases hr : makefile_rule m t with
    | none =>
      rw [run_makefile_no_rule w ⟨b, q1⟩ fuel s1 hr,
          run_makefile_no_rule w ⟨b, q2⟩ fuel s2 hr]
      simp [stripO, h]
    | some r =>
      cases hp : r.prereqs with
      | nil =>
        rw [run_makefile_no_prereqs w ⟨b, q1⟩ fuel s1 hr hp,
            run_makefile_no_prereqs w ⟨b, q2⟩ fuel s2 hr hp]
        exact strip_run_command w q1 q2 r.cmd s1 s2 h
      | cons p ps =>
        rw [run_makefile_prereqs w ⟨b, q1⟩ m fuel t s1 r p ps hr hp,
            run_makefile_prereqs w ⟨b, q2⟩ m fuel t s2 r p ps hr hp]
        refine strip_bind _ _ _ _ ?_ ?_
        · exact strip_build_list _ _ (fun p2 t1 t2 ht => ih p2 t1 t2 ht) (p :: ps) s1 s2 h
        · intro t1 t2 ht
          cases b with
          | true => simpa using strip_run_command w q1 q2 r.cmd t1 t2 ht
          | false => simpa using strip_check_loop w q1 q2 m t r.cmd (p :: ps) t1 t2 ht

theorem strip_run_targets (w : World) (m : List Rule) (b q1 q2 : Bool) (fuel : Nat)
    (targets : List String) (s1 s2 : RunState) (h : stripSt s1 = stripSt s2) :
    stripO (run_targets w ⟨b, q1⟩ m fuel targets s1) =
      stripO (run_targets w ⟨b, q2⟩ m fuel targets s2) :=
  strip_build_list _ _
    (fun p t1 t2 ht => strip_run_makefile w m b q1 q2 fuel p t1 t2 ht)
    targets s1 s2 h

/- ------------------------------------------------------------------ -/
/- Claim theorems                                                     -/
/- ------------------------------------------------------------------ -/

/-- Claim C1: on normal completion the final process exit code equals
the exit status most recently recorded by an executed command (0 when
nothing was ever recorded); and a target whose build completes normally
(whatever exit status its commands recorded) does not abort the loop of
main: the remaining explicit targets are still built, in the order
given. -/
theorem C1_final_exit_last_command :
    (∀ (w : World) (sa : Args) (m : List Rule) (targets : List String)
        (fuel : Nat) (st : RunState),
        mmake_main w sa m targets fuel = Outcome.ok st →
        st.exitcode = st.recorded.getLastD 0) ∧
    (∀ (w : World) (sa : Args) (m : List Rule) (fuel : Nat) (t : String)
        (ts : List String) (st st1 : RunState),
        run_makefile w sa m fuel t st = Outcome.ok st1 →
        run_targets w sa m fuel (t :: ts) st = run_targets w sa m fuel ts st1) := by
  constructor
  · intro w sa m targets fuel st h
    exact build_list_pres _ _
      (fun p s s' h2 => inv_run_makefile w sa m fuel p s s' h2)
      (effective_targets m targets) init_state st h rfl
  · intro w sa m fuel t ts st st1 h
    simp [run_targets, build_list, h]

/-- Witness for C1 on the end-to-end scenario: two explicit targets, the
first command exits 2, the second 0; both commands ran, the final state
is normal completion, and its exit code is the last recorded status 0. -/
theorem C1_final_exit_last_command_witness :
    (mmake_main wC1 ⟨false, false⟩ mC1 ["t1", "t2"] 3 = Outcome.ok stC1 ∧
     stC1.exitcode = stC1.recorded.getLastD 0) ∧
    (run_makefile wC1 ⟨false, false⟩ mC1 3 "t1" init_state = Outcome.ok stC1a ∧
     run_targets wC1 ⟨false, false⟩ mC1 3 ["t1", "t2"] init_state =
       run_targets wC1 ⟨false, false⟩ mC1 3 ["t2"] stC1a) :=
  ⟨⟨by decide,
    C1_final_exit_last_command.1 wC1 ⟨false, false⟩ mC1 ["t1", "t2"] 3 stC1 (by decide)⟩,
   ⟨by decide,
    C1_final_exit_last_command.2 wC1 ⟨false, false⟩ mC1 3 "t1" ["t2"] init_state stC1a
      (by decide)⟩⟩

/-- Claim C2: for an existing prerequisite and an existing target, the
staleness oracle reports rebuild exactly when the prerequisite
modification time is strictly newer than that of the target (ties and
older prerequisites report no rebuild); a missing target with an
existing prerequisite reports rebuild. -/
theorem C2_staleness_compare (fs : String → Option Nat) (m : List Rule)
    (c p : String) (tp tc : Nat) :
    (fs p = some tp → fs c = some tc →
      (check_file fs m c p = Except.ok (decide (tc < tp)) ∧
       (check_file fs m c p = Except.ok true ↔ tc < tp))) ∧
    (fs p = some tp → fs c = none → check_file fs m c p = Except.ok true) := by
  constructor
  · intro hp hc
    constructor
    · simp [check_file, hp, hc]
    · simp [check_file, hp, hc]
  · intro hp hc
    simp [check_file, hp, hc]

/-- Witness for C2: equal timestamps (5 and 5) report no rebuild; a
newer prerequisite with a missing target reports rebuild. -/
theorem C2_staleness_compare_witness :
    (check_file fsC2 [] "tar" "pre" = Except.ok (decide (5 < 5)) ∧
     (check_file fsC2 [] "tar" "pre" = Except.ok true ↔ 5 < 5)) ∧
    check_file fsC2 [] "tar2" "pre2" = Except.ok true :=
  ⟨(C2_staleness_compare fsC2 [] "tar" "pre" 5 5).1 (by decide) (by decide),
   (C2_staleness_compare fsC2 [] "tar2" "pre2" 7 0).2 (by decide) (by decide)⟩

/-- Claim C3: a prerequisite with no file and no rule makes check_file
fail with the no-rule message; with a rule it reports rebuild instead;
in the check loop the failure becomes an immediate fatal exit with
status 1 (EXIT_FAILURE) carrying the message, and a fatal outcome
absorbs everything sequenced after it (no further commands run). -/
theorem C3_missing_prereq_fatal :
    (∀ (fs : String → Option Nat) (m : List Rule) (c p : String),
        fs p = none → makefile_rule m p = none →
        check_file fs m c p =
          Except.error ("mmake: No rule to make target \x27" ++ p ++ "\x27")) ∧
    (∀ (fs : String → Option Nat) (m : List Rule) (c p : String) (r : Rule),
        fs p = none → makefile_rule m p = some r →
        check_file fs m c p = Except.ok true) ∧
    (∀ (w : World) (q : Bool) (m : List Rule) (target : String) (cmd : List String)
        (p : String) (ps : List String) (st : RunState) (msg : String),
        check_file w.fs m target p = Except.error msg →
        check_loop w q m target cmd (p :: ps) st =
          Outcome.fatal 1 { st with errout := st.errout ++ [msg] }) ∧
    (∀ (c : Nat) (st : RunState) (f : RunState → Outcome),
        Outcome.bind (Outcome.fatal c st) f = Outcome.fatal c st) := by
  refine ⟨?_, ?_, ?_, ?_⟩
  · intro fs m c p hp hm
    simp [check_file, hp, hm]
  · intro fs m c p r hp hm
    simp [check_file, hp, hm]
  · intro w q m target cmd p ps st msg hcf
    simp [check_loop, hcf]
  · intro c st f
    rfl

/-- Witness for C3: the missing prerequisite p with an empty rule model
gives the no-rule error; with a rule for p the oracle reports rebuild;
the check loop turns the error into a fatal exit with status 1; the
fatal outcome absorbs a continuation. -/
theorem C3_missing_prereq_fatal_witness :
    check_file fsC3 [] "c" "p" =
      Except.error ("mmake: No rule to make target \x27" ++ "p" ++ "\x27") ∧
    check_file fsC3 mC3 "c" "p" = Except.ok true ∧
    check_loop wC3 false [] "c" ["x"] ["p"] init_state =
      Outcome.fatal 1 { init_state with
                        errout := init_state.errout ++
                          ["mmake: No rule to make target \x27p\x27"] } ∧
    Outcome.bind (Outcome.fatal 1 init_state) (fun st => Outcome.ok st) =
      Outcome.fatal 1 init_state :=
  ⟨C3_missing_prereq_fatal.1 fsC3 [] "c" "p" (by decide) (by decide),
   C3_missing_prereq_fatal.2.1 fsC3 mC3 "c" "p" ⟨"p", [], []⟩ (by decide) (by decide),
   C3_missing_prereq_fatal.2.2.1 wC3 false [] "c" ["x"] "p" [] init_state
     "mmake: No rule to make target \x27p\x27" (by rfl),
   C3_missing_prereq_fatal.2.2.2 1 init_state (fun st => Outcome.ok st)⟩

/-- Claim C4: a rule without prerequisites always reaches the command
executor, whatever the file system and whatever the force flag, and the
executor really forks a process (the fork counter advances). -/
theorem C4_no_prereq_always_runs (w : World) (sa : Args) (m : List Rule)
    (fuel : Nat) (target : String) (st : RunState) (r : Rule)
    (hr : makefile_rule m target = some r) (hp : r.prereqs = []) :
    run_makefile w sa m (fuel + 1) target st = run_command w sa.arg_s r.cmd st ∧
    (run_command w sa.arg_s r.cmd st).state.nspawn = st.nspawn + 1 :=
  ⟨run_makefile_no_prereqs w sa fuel st hr hp,
   run_command_nspawn w sa.arg_s r.cmd st⟩

/-- Witness for C4: the phony clean rule runs its command even with the
force flag set and no file on disk. -/
theorem C4_no_prereq_always_runs_witness :
    run_makefile wC4 ⟨true, true⟩ mC4 1 "clean" init_state =
      run_command wC4 true ["rm"] init_state ∧
    (run_command wC4 true ["rm"] init_state).state.nspawn = init_state.nspawn + 1 :=
  C4_no_prereq_always_runs wC4 ⟨true, true⟩ mC4 0 "clean" init_state
    ⟨"clean", [], ["rm"]⟩ (by decide) (by decide)

/-- Claim C5: with force-rebuild off, a rule with prerequisites has the
staleness oracle evaluated per prerequisite in declaration order and the
command executed once per prerequisite judged stale: over leaf
prerequisites (files with no own rule) and an existing target of time
tt, the visit appends exactly one copy of the command per prerequisite
strictly newer than tt. -/
theorem C5_command_per_stale_prereq (w : World) (sa : Args) (m : List Rule)
    (fuel : Nat) (target : String) (st : RunState) (r : Rule) (tt : Nat)
    (hb : sa.arg_b = false)
    (hr : makefile_rule m target = some r)
    (hne : r.prereqs ≠ [])
    (hnorule : ∀ p ∈ r.prereqs, makefile_rule m p = none)
    (hfiles : ∀ p ∈ r.prereqs, (w.fs p).isSome = true)
    (htar : w.fs target = some tt)
    (hok : ∀ n, SpawnOk (w.spawn n)) :
    (run_makefile w sa m (fuel + 2) target st).isOk = true ∧
    (run_makefile w sa m (fuel + 2) target st).state.spawned =
      st.spawned ++ List.replicate (r.prereqs.countP (staleP w tt)) r.cmd := by
  cases hp : r.prereqs with
  | nil => exact absurd hp hne
  | cons p ps =>
    rw [hp] at hnorule hfiles
    obtain ⟨st', hcl, hsp⟩ :=
      check_loop_count w sa.arg_s m target r.cmd tt htar hok (p :: ps) st hfiles
    have hrun : run_makefile w sa m (fuel + 2) target st = Outcome.ok st' := by
      rw [run_makefile_prereqs w sa m (fuel + 1) target st r p ps hr hp,
          build_list_no_rule w sa m fuel (p :: ps) st hnorule, bind_ok, hb]
      simpa using hcl
    rw [hrun]
    exact ⟨rfl, hsp⟩

/-- Witness for C5: target T (time 10) with two leaf prerequisites a
(time 20) and b (time 30); both are individually newer, and the single
visit runs the command twice. -/
theorem C5_command_per_stale_prereq_witness :
    (run_makefile wC5 ⟨false, false⟩ mC5 2 "T" init_state).isOk = true ∧
    (run_makefile wC5 ⟨false, false⟩ mC5 2 "T" init_state).state.spawned =
      init_state.spawned ++
        List.replicate (List.countP (staleP wC5 10) ["a", "b"]) ["cc"] :=
  C5_command_per_stale_prereq wC5 ⟨false, false⟩ mC5 0 "T" init_state
    ⟨"T", ["a", "b"], ["cc"]⟩ 10 rfl (by decide) (by decide) (by decide)
    (by decide) (by decide) (fun _ => trivial)

/-- Claim C6 counterexample: exec failure does not abort the whole
build. With the first spawned command failing to exec (errno 2) and two
explicit targets, the run is not fatal, both commands were spawned, and
the final exit status is that of the second command (0), contradicting
the claim that exec failure terminates the program with no subsequent
targets processed. -/
theorem C6_exec_failure_counterexample :
    (mmake_main wC6cex ⟨false, false⟩ mC6 ["a", "b"] 2).isFatal = false ∧
    (mmake_main wC6cex ⟨false, false⟩ mC6 ["a", "b"] 2).isOk = true ∧
    (mmake_main wC6cex ⟨false, false⟩ mC6 ["a", "b"] 2).state.spawned =
      [["foo"], ["bar"]] ∧
    final_exit (mmake_main wC6cex ⟨false, false⟩ mC6 ["a", "b"] 2) = some 0 := by
  decide

/-- Claim C6 (amended): fork failure and wait failure are fatal with the
OS error as the exit status; exec failure happens in the child, which
exits with the OS errno, so the parent records errno mod 256 as a normal
command status (printing the message on stderr) and the traversal
continues: normal outcomes pass through sequencing while fatal outcomes
absorb it. -/
theorem C6_spawn_failure_amended :
    (∀ (w : World) (q : Bool) (cmd : List String) (st : RunState) (e : Nat),
        w.spawn st.nspawn = SpawnResult.forkFail e →
        run_command w q cmd st =
          Outcome.fatal e { echo_cmd q cmd st with
                            nspawn := st.nspawn + 1,
                            errout := st.errout ++ [oserr e] }) ∧
    (∀ (w : World) (q : Bool) (cmd : List String) (st : RunState) (e : Nat),
        w.spawn st.nspawn = SpawnResult.waitFail e →
        run_command w q cmd st =
          Outcome.fatal e { echo_cmd q cmd st with
                            nspawn := st.nspawn + 1,
                            spawned := st.spawned ++ [cmd],
                            errout := st.errout ++ [oserr e] }) ∧
    (∀ (w : World) (q : Bool) (cmd : List String) (st : RunState) (e : Nat),
        w.spawn st.nspawn = SpawnResult.execFailChild e →
        (run_command w q cmd st).isOk = true ∧
        (run_command w q cmd st).state.exitcode = e % 256 ∧
        (run_command w q cmd st).state.errout = st.errout ++ [oserr e] ∧
        (run_command w q cmd st).state.spawned = st.spawned ++ [cmd]) ∧
    (∀ (st : RunState) (f : RunState → Outcome),
        Outcome.bind (Outcome.ok st) f = f st) ∧
    (∀ (c : Nat) (st : RunState) (f : RunState → Outcome),
        Outcome.bind (Outcome.fatal c st) f = Outcome.fatal c st) := by
  refine ⟨?_, ?_, ?_, ?_, ?_⟩
  · intro w q cmd st e hs
    exact run_command_forkFail q cmd hs
  · intro w q cmd st e hs
    exact run_command_waitFail q cmd hs
  · intro w q cmd st e hs
    refine ⟨?_, ?_, ?_, ?_⟩ <;> rw [run_command_execFail q cmd hs] <;>
      simp [Outcome.state, Outcome.isOk]
  · intro st f
    rfl
  · intro c st f
    rfl

/-- Witness for the amended C6: a failing fork (errno 12) is fatal with
code 12; a failing exec (errno 2) leaves a normal outcome with exit code
2 and the command in the spawn trace. -/
theorem C6_spawn_failure_amended_witness :
    run_command wC6ff false ["foo"] init_state =
      Outcome.fatal 12 { echo_cmd false ["foo"] init_state with
                         nspawn := init_state.nspawn + 1,
                         errout := init_state.errout ++ [oserr 12] } ∧
    ((run_command wC6ef false ["foo"] init_state).isOk = true ∧
     (run_command wC6ef false ["foo"] init_state).state.exitcode = 2 % 256 ∧
     (run_command wC6ef false ["foo"] init_state).state.errout =
       init_state.errout ++ [oserr 2] ∧
     (run_command wC6ef false ["foo"] init_state).state.spawned =
       init_state.spawned ++ [["foo"]]) :=
  ⟨C6_spawn_failure_amended.1 wC6ff false ["foo"] init_state 12 rfl,
   C6_spawn_failure_amended.2.2.1 wC6ef false ["foo"] init_state 2 rfl⟩

/-- Claim C7 counterexample: executing an empty command is not a no-op.
With an oracle whose child exits 7, the executor on the empty command
forks a process (the spawn trace gains an entry and the fork counter
advances) and updates the exit code, contradicting the claim. -/
theorem C7_empty_command_counterexample :
    run_command wC7 false [] init_state = Outcome.ok ⟨7, 1, [], [], [[]], [7]⟩ ∧
    (run_command wC7 false [] init_state).state.nspawn ≠ init_state.nspawn := by
  decide

/-- Claim C7 (amended): on a rule with an empty command sequence the
executor prints nothing, but it still forks a child and attempts the
exec: the fork counter always advances by one; the exit code then
follows the reported child status as for any command. -/
theorem C7_empty_command_amended (w : World) (q : Bool) (st : RunState) :
    (run_command w q [] st).state.output = st.output ∧
    (run_command w q [] st).state.nspawn = st.nspawn + 1 := by
  cases hs : w.spawn st.nspawn <;>
    simp [run_command, hs, Outcome.state]

/-- Claim C10: a child that terminates abnormally (without a normal
exit) leaves the recorded exit code and the recording trace unchanged
and the run continues normally; a normally exited child updates the
exit code to its status (mod 256) and appends it to the trace. -/
theorem C10_abnormal_child (w : World) (q : Bool) (cmd : List String) (st : RunState) :
    (w.spawn st.nspawn = SpawnResult.signaled →
      run_command w q cmd st =
        Outcome.ok { echo_cmd q cmd st with
                     nspawn := st.nspawn + 1,
                     spawned := st.spawned ++ [cmd] } ∧
      (run_command w q cmd st).state.exitcode = st.exitcode ∧
      (run_command w q cmd st).state.recorded = st.recorded) ∧
    (∀ s : Nat, w.spawn st.nspawn = SpawnResult.exited s →
      (run_command w q cmd st).isOk = true ∧
      (run_command w q cmd st).state.exitcode = s % 256 ∧
      (run_command w q cmd st).state.recorded = st.recorded ++ [s % 256]) := by
  constructor
  · intro hs
    refine ⟨run_command_signaled q cmd hs, ?_, ?_⟩ <;>
      rw [run_command_signaled q cmd hs] <;> simp [Outcome.state]
  · intro s hs
    refine ⟨?_, ?_, ?_⟩ <;> rw [run_command_exited q cmd hs] <;>
      simp [Outcome.state, Outcome.isOk]

/-- Witness for C10: a killed child (signaled) leaves the state exit
code 0 and empty trace; an exited child with status 3 records 3. -/
theorem C10_abnormal_child_witness :
    (run_command wC10sig false ["x"] init_state =
       Outcome.ok { echo_cmd false ["x"] init_state with
                    nspawn := init_state.nspawn + 1,
                    spawned := init_state.spawned ++ [["x"]] } ∧
     (run_command wC10sig false ["x"] init_state).state.exitcode = init_state.exitcode ∧
     (run_command wC10sig false ["x"] init_state).state.recorded = init_state.recorded) ∧
    ((run_command wC10ex false ["x"] init_state).isOk = true ∧
     (run_command wC10ex false ["x"] init_state).state.exitcode = 3 % 256 ∧
     (run_command wC10ex false ["x"] init_state).state.recorded =
       init_state.recorded ++ [3 % 256]) :=
  ⟨(C10_abnormal_child wC10sig false ["x"] init_state).1 rfl,
   (C10_abnormal_child wC10ex false ["x"] init_state).2 3 rfl⟩

/-- Claim C8: a direct target with no rule in the model is a no-op for
the driver: it returns at once with the state unchanged and no error,
whatever the file system. -/
theorem C8_unknown_target_noop (w : World) (sa : Args) (m : List Rule)
    (fuel : Nat) (target : String) (st : RunState)
    (h : makefile_rule m target = none) :
    run_makefile w sa m (fuel + 1) target st = Outcome.ok st :=
  run_makefile_no_rule w sa fuel st h

/-- Witness for C8: the target zzz has no rule and no file, and building
it returns the initial state unchanged. -/
theorem C8_unknown_target_noop_witness :
    run_makefile wC8 ⟨false, false⟩ mC8 1 "zzz" init_state = Outcome.ok init_state :=
  C8_unknown_target_noop wC8 ⟨false, false⟩ mC8 0 "zzz" init_state (by decide)

/-- Claim C9: the quiet flag does not influence the algorithm. For every
world, rule model, target list, force flag and fuel, the quiet and loud
runs agree once stdout is erased: in particular they spawn the same
commands in the same order and yield the same final process exit
status. -/
theorem C9_quiet_noninterference (w : World) (b : Bool) (m : List Rule)
    (targets : List String) (fuel : Nat) :
    stripO (mmake_main w ⟨b, true⟩ m targets fuel) =
      stripO (mmake_main w ⟨b, false⟩ m targets fuel) ∧
    (mmake_main w ⟨b, true⟩ m targets fuel).state.spawned =
      (mmake_main w ⟨b, false⟩ m targets fuel).state.spawned ∧
    final_exit (mmake_main w ⟨b, true⟩ m targets fuel) =
      final_exit (mmake_main w ⟨b, false⟩ m targets fuel) := by
  have h : stripO (mmake_main w ⟨b, true⟩ m targets fuel) =
      stripO (mmake_main w ⟨b, false⟩ m targets fuel) :=
    strip_run_targets w m b true false fuel (effective_targets m targets)
      init_state init_state rfl
  refine ⟨h, ?_, ?_⟩
  · have h2 := congrArg (fun o => o.state.spawned) h
    simpa [stripO_state_spawned] using h2
  · have h3 := congrArg final_exit h
    simpa [stripO_final_exit] using h3

end Mmake
